import Mathlib

/-!
Shallow embedding of the adaptive transcoding session manager of
`src/server/stream.py` (module `stream`), together with proofs of the
specification claims about it.

Conventions of the embedding:
* Python floats used for media timestamps are modelled as exact rationals
  (`ℚ`); all operations involved are comparisons, `max`, and additions of
  small constants, which behave identically.
* Filesystem and subprocess observations are passed in explicitly
  (e.g. the playlist file content as an `Option String`, a segment file's
  size over time as `Nat → Option Nat`, a probe run's parsed output as an
  `Option` of parsed lines).
* State-changing operations additionally return a list of the externally
  visible actions they perform, so that counting statements
  ("exactly one termination") can be expressed.
-/

namespace ReelStream

/-! ## Keyframe resolver (`_find_keyframe_time`, stream.py lines 294-325) -/

/-- One output line of the keyframe probe
(`ffprobe -show_entries packet=pts_time,flags -of csv=p=0`), after the
parsing done by the Python loop: `pts` is the parsed `pts_time` field
(`none` when `float(parts[0])` raises `ValueError`), and `flagsHasK`
records whether the line has at least two fields and the flags field
contains the character `K`. -/
structure KfLine where
  pts : Option ℚ
  flagsHasK : Bool
deriving DecidableEq, Repr

/-- The fold step of the Python loop over probe output lines:
`if len(parts) >= 2 and "K" in parts[1]: pts = float(parts[0]);
 if pts <= target_time + 0.1: best = max(best, pts)`. -/
def kfStep (target : ℚ) (b : ℚ) (l : KfLine) : ℚ :=
  if l.flagsHasK then
    match l.pts with
    | some p => if p ≤ target + 1/10 then max b p else b
    | none => b
  else b

/-- `best` after the Python loop: fold of `kfStep` over the probe lines,
starting from `best = 0.0`. -/
def kfBest (target : ℚ) (lines : List KfLine) : ℚ :=
  lines.foldl (kfStep target) 0

/-- `_find_keyframe_time(filepath, target_time)`.  The probe run is passed
in as `probe`: `none` models a probe failure (`returncode != 0`, a raised
exception, or a timeout — all of which make the Python function return
`target_time`), `some lines` the parsed csv output lines. -/
def find_keyframe_time (target : ℚ) (probe : Option (List KfLine)) : ℚ :=
  if target ≤ 0 then 0
  else
    match probe with
    | none => target
    | some lines =>
      let best := kfBest target lines
      if best > 0 then best else target

/-- A probe line that actually moves `best` above `0`: flags contain `K`,
the pts parses, lies within the accepted window `(0, target + 0.1]`. -/
def effectiveKey (target : ℚ) (l : KfLine) : Bool :=
  l.flagsHasK &&
    match l.pts with
    | some p => decide (p ≤ target + 1/10) && decide (0 < p)
    | none => false

lemma kfStep_le (target b : ℚ) (l : KfLine) (hb : b ≤ target + 1/10) :
    kfStep target b l ≤ target + 1/10 := by
  rcases l with ⟨pts, k⟩
  cases k with
  | false => exact hb
  | true =>
    cases pts with
    | none => exact hb
    | some p =>
      show (if p ≤ target + 1/10 then max b p else b) ≤ target + 1/10
      split
      case isTrue h => exact max_le hb h
      case isFalse h => exact hb

lemma kfBest_le (target : ℚ) (lines : List KfLine) :
    ∀ b, b ≤ target + 1/10 → lines.foldl (kfStep target) b ≤ target + 1/10 := by
  induction lines with
  | nil => intro b hb; exact hb
  | cons l rest ih =>
    intro b hb
    rw [List.foldl_cons]
    exact ih _ (kfStep_le target b l hb)

lemma kfStep_zero_of_not_effective (target : ℚ) (l : KfLine)
    (hl : effectiveKey target l = false) : kfStep target 0 l = 0 := by
  rcases l with ⟨pts, k⟩
  cases k with
  | false => rfl
  | true =>
    cases pts with
    | none => rfl
    | some p =>
      have hl' : (decide (p ≤ target + 1/10) && decide (0 < p)) = false := by
        rw [show effectiveKey target ⟨some p, true⟩
            = (decide (p ≤ target + 1/10) && decide (0 < p)) from rfl] at hl
        exact hl
      show (if p ≤ target + 1/10 then max 0 p else 0) = 0
      split
      case isTrue hple =>
        rw [decide_eq_true hple, Bool.true_and] at hl'
        have hp0 : p ≤ 0 := le_of_not_lt (of_decide_eq_false hl')
        exact max_eq_left hp0
      case isFalse hple => rfl

lemma kfBest_zero_of_no_effective (target : ℚ) (lines : List KfLine)
    (h : ∀ l ∈ lines, effectiveKey target l = false) :
    kfBest target lines = 0 := by
  unfold kfBest
  induction lines with
  | nil => rfl
  | cons l rest ih =>
    rw [List.foldl_cons,
      kfStep_zero_of_not_effective target l (h l (List.mem_cons_self l rest))]
    exact ih (fun x hx => h x (List.mem_cons_of_mem l hx))

lemma find_keyframe_time_some (target : ℚ) (lines : List KfLine)
    (h : ¬ target ≤ 0) :
    find_keyframe_time target (some lines) =
      if kfBest target lines > 0 then kfBest target lines else target := by
  unfold find_keyframe_time
  rw [if_neg h]

lemma find_keyframe_time_none (target : ℚ) (h : ¬ target ≤ 0) :
    find_keyframe_time target none = target := by
  unfold find_keyframe_time
  rw [if_neg h]

/-! ## Session failure observation
(`StreamSession.has_segments` / `StreamSession.ffmpeg_failed`,
stream.py lines 223-248) -/

/-- Python's substring test `pat in s`, as applied to the playlist file
content: some suffix of `s` starts with `pat`. -/
def strContains (s pat : String) : Bool :=
  (List.range (s.data.length + 1)).any fun i => pat.data.isPrefixOf (s.data.drop i)

/-- Observable state of a `StreamSession` as read by `has_segments`,
`ffmpeg_failed` and the `playlist` handler.  `process = none` models
`self.process` still being `None`; `process = some none` a running process
(`poll()` returns `None`); `process = some (some rc)` a process that exited
with return code `rc`.  `playlistFile` is the current content of
`<dir>/playlist.m3u8`, `none` when opening it raises `OSError`. -/
structure SessionObs where
  process : Option (Option Int)
  playlistFile : Option String
deriving DecidableEq, Repr

/-- `StreamSession.has_segments` (lines 223-230): the playlist file opens
and its content contains `#EXTINF:`; an `OSError` yields `False`. -/
def has_segments (s : SessionObs) : Bool :=
  match s.playlistFile with
  | some content => strContains content "#EXTINF:"
  | none => false

/-- `StreamSession.ffmpeg_failed` (lines 232-248).  The error-log tail is
only read for logging and is omitted. -/
def ffmpeg_failed (s : SessionObs) : Bool :=
  match s.process with
  | none => true
  | some pollRes =>
    match pollRes with
    | some rc => if rc ≠ 0 then (if has_segments s then false else true) else false
    | none => false

/-- The condition the spec names for `hasFailed()`: the process handle is
set and the process has exited with a non-zero code. -/
def exitedNonZero (s : SessionObs) : Bool :=
  match s.process with
  | some (some rc) => decide (rc ≠ 0)
  | _ => false

/-! ## `playlist` handler (stream.py lines 432-464) -/

/-- Response of the `playlist` handler: `err500` is the
`("transcoding failed", 500)` JSON error; `ok body` is a 200 response
carrying `body` as the manifest. -/
inductive PlaylistResp
  | err500
  | ok (body : String)
deriving DecidableEq, Repr

/-- The stub manifest built at lines 458-463 (header only, no `#EXTINF:`
entries), with the session's configured segment duration interpolated. -/
def stubManifest (segDur : Nat) : String :=
  "#EXTM3U\n" ++ "#EXT-X-VERSION:3\n" ++ "#EXT-X-TARGETDURATION:" ++ toString segDur
    ++ "\n" ++ "#EXT-X-MEDIA-SEQUENCE:0\n"

/-- The `playlist` handler body after the session lookup and `touch()`
(lines 444-464): 500 on `ffmpeg_failed`, the real manifest when the file
reads and contains a segment entry, the stub otherwise (including when the
file does not open). -/
def playlistHandler (s : SessionObs) (segDur : Nat) : PlaylistResp :=
  if ffmpeg_failed s then .err500
  else
    match s.playlistFile with
    | some content =>
      if strContains content "#EXTINF:" then .ok content else .ok (stubManifest segDur)
    | none => .ok (stubManifest segDur)

lemma digitChar_isDigit (n : Nat) (h : n < 10) : (Nat.digitChar n).isDigit = true := by
  interval_cases n <;> decide

lemma toDigitsCore_all_digits (fuel : Nat) :
    ∀ (n : Nat) (acc : List Char), (∀ c ∈ acc, c.isDigit = true) →
      ∀ c ∈ Nat.toDigitsCore 10 fuel n acc, c.isDigit = true := by
  induction fuel with
  | zero => intro n acc hacc c hc; exact hacc c hc
  | succ fuel ih =>
    intro n acc hacc c hc
    simp only [Nat.toDigitsCore] at hc
    have haccd : ∀ x ∈ Nat.digitChar (n % 10) :: acc, x.isDigit = true := by
      intro x hx
      rcases List.mem_cons.mp hx with hx | hx
      · subst hx; exact digitChar_isDigit _ (Nat.mod_lt _ (by decide))
      · exact hacc x hx
    split at hc
    · exact haccd c hc
    · exact ih (n / 10) _ haccd c hc

lemma repr_all_digits (n : Nat) : ∀ c ∈ (toString n).data, c.isDigit = true := by
  intro c hc
  have hdata : (toString n).data = Nat.toDigitsCore 10 (n + 1) n [] := rfl
  rw [hdata] at hc
  exact toDigitsCore_all_digits (n + 1) n [] (by intro x hx; cases hx) c hc

/-- The stub manifest contains no segment entry, whatever the configured
segment duration renders to. -/
lemma stubManifest_no_extinf (d : Nat) :
    strContains (stubManifest d) "#EXTINF:" = false := by
  by_contra h
  rw [Bool.not_eq_false] at h
  unfold strContains at h
  rw [List.any_eq_true] at h
  obtain ⟨i, _, hpre⟩ := h
  have hsub : "#EXTINF:".data ⊆ (stubManifest d).data := fun c hc =>
    List.drop_subset i _ ((List.isPrefixOf_iff_prefix.mp hpre).subset hc)
  have hF : 'F' ∈ (stubManifest d).data := hsub (by decide)
  have hdata : (stubManifest d).data =
      ("#EXTM3U\n".data ++ "#EXT-X-VERSION:3\n".data ++ "#EXT-X-TARGETDURATION:".data
        ++ (toString d).data ++ "\n".data ++ "#EXT-X-MEDIA-SEQUENCE:0\n".data) := by
    simp only [stubManifest, String.data_append]
  rw [hdata] at hF
  simp only [List.mem_append] at hF
  rcases hF with ((((h1 | h2) | h3) | h4) | h5) | h6
  · exact absurd h1 (by decide)
  · exact absurd h2 (by decide)
  · exact absurd h3 (by decide)
  · exact absurd (repr_all_digits d 'F' h4) (by decide)
  · exact absurd h5 (by decide)
  · exact absurd h6 (by decide)

/-- The stub manifest starts with the `#EXTM3U` header. -/
lemma stubManifest_header (d : Nat) :
    "#EXTM3U".data <+: (stubManifest d).data := by
  have h1 : "#EXTM3U".data <+: "#EXTM3U\n".data := by decide
  have h2 : "#EXTM3U\n".data <+: (stubManifest d).data := by
    have hdata : (stubManifest d).data =
        "#EXTM3U\n".data ++ ("#EXT-X-VERSION:3\n".data ++ "#EXT-X-TARGETDURATION:".data
          ++ (toString d).data ++ "\n".data ++ "#EXT-X-MEDIA-SEQUENCE:0\n".data) := by
      simp only [stubManifest, String.data_append, List.append_assoc]
    rw [hdata]
    exact List.prefix_append _ _
  exact h1.trans h2

/-! ## Claim theorems: keyframe resolver (C4, C10) -/

/-- C4, counterexample: with requested time 1.0 and the probe reporting a
keyframe packet at pts 1.05, `_find_keyframe_time` accepts it (the code
admits keyframes up to `target_time + 0.1`) and returns 1.05, which is
strictly greater than the requested time — refuting "never strictly
greater than t". -/
theorem C4_keyframe_exceeds_target_cex :
    find_keyframe_time 1 (some [⟨some (21/20), true⟩]) = 21/20 ∧
      ¬ find_keyframe_time 1 (some [⟨some (21/20), true⟩]) ≤ 1 := by
  have hb : kfBest 1 [⟨some (21/20), true⟩] = 21/20 := by
    show (if (21/20 : ℚ) ≤ 1 + 1/10 then max 0 (21/20) else 0) = 21/20
    rw [if_pos (by norm_num)]
    exact max_eq_right (by norm_num)
  have h1 : find_keyframe_time 1 (some [⟨some (21/20), true⟩]) = 21/20 := by
    rw [find_keyframe_time_some 1 _ (by norm_num), hb]
    rw [if_pos (by norm_num : (21/20 : ℚ) > 0)]
  refine ⟨h1, ?_⟩
  rw [h1]
  norm_num

/-- C4, amended: for every requested seek time t > 0, keyframe resolution
returns a timestamp at most t + 0.1 (the code tolerates keyframes up to
0.1 past the request, so "≤ t" fails but "≤ t + 0.1" holds), and it
returns exactly t unchanged whenever the probe subprocess fails or raises,
and whenever no probe line carries a keyframe flag with a parsable,
positive pts within the accepted window. -/
theorem C4_keyframe_window_amended (target : ℚ) (probe : Option (List KfLine))
    (ht : 0 < target) :
    find_keyframe_time target probe ≤ target + 1/10 ∧
      (probe = none → find_keyframe_time target probe = target) ∧
      (∀ lines, probe = some lines →
        (∀ l ∈ lines, effectiveKey target l = false) →
        find_keyframe_time target probe = target) := by
  have hnle : ¬ target ≤ 0 := not_le.mpr ht
  cases probe with
  | none =>
    rw [find_keyframe_time_none target hnle]
    refine ⟨by linarith, fun _ => rfl, fun lines h => absurd h (by simp)⟩
  | some lines =>
    rw [find_keyframe_time_some target lines hnle]
    refine ⟨?_, fun h => Option.noConfusion h, ?_⟩
    · split
      case isTrue hpos => exact kfBest_le target lines 0 (by linarith)
      case isFalse hpos => linarith
    · intro lines' heq hall
      obtain rfl : lines = lines' := Option.some.inj heq
      rw [kfBest_zero_of_no_effective target lines hall]
      rw [if_neg (lt_irrefl (0 : ℚ))]

/-- Witness for C4's amended theorem at a concrete input: for requested
time 7 with a failing probe, the resolver returns 7 unchanged. -/
theorem C4_keyframe_window_amended_witness :
    find_keyframe_time 7 none = 7 :=
  (C4_keyframe_window_amended 7 none (by norm_num)).2.1 rfl

/-- C10: for every requested seek time ≤ 0 (negative included), the
keyframe resolver returns exactly 0.0 — independently of the probe, whose
invocation the guard precedes — rather than the requested time. -/
theorem C10_keyframe_nonpos (target : ℚ) (probe : Option (List KfLine))
    (ht : target ≤ 0) : find_keyframe_time target probe = 0 := by
  unfold find_keyframe_time
  rw [if_pos ht]

/-- Witness for C10 at the concrete input -5: the result is 0, which
differs from the requested time. -/
theorem C10_keyframe_nonpos_witness :
    find_keyframe_time (-5) (some [⟨some 3, true⟩]) = 0 ∧ (0 : ℚ) ≠ -5 :=
  ⟨C10_keyframe_nonpos (-5) (some [⟨some 3, true⟩]) (by norm_num), by norm_num⟩

/-! ## Claim theorems: `ffmpeg_failed` (C2) -/

/-- C2, counterexample: a session whose process handle is still nil (as
before `start()` assigns `self.process`) has `ffmpeg_failed() = True`
although the process has not exited with a non-zero code — refuting the
claim's "this is the only condition under which it is true, … including
one whose process handle is still nil". -/
theorem C2_ffmpeg_failed_nil_cex :
    ffmpeg_failed ⟨none, none⟩ = true ∧ exitedNonZero ⟨none, none⟩ = false :=
  ⟨rfl, rfl⟩

/-- C2, amended: for every session whose process handle is set,
`ffmpeg_failed()` is true iff the process exited with a non-zero code and
the manifest holds no segment entry (so it is false while the process
runs, false on exit code 0, and false after a non-zero exit that produced
a segment); a session whose process handle is still nil reports
`ffmpeg_failed() = True` defensively. -/
theorem C2_ffmpeg_failed_amended (s : SessionObs) :
    (s.process = none → ffmpeg_failed s = true) ∧
    (∀ pollRes, s.process = some pollRes →
      (ffmpeg_failed s = true ↔
        (∃ rc, pollRes = some rc ∧ rc ≠ 0) ∧ has_segments s = false)) := by
  obtain ⟨proc, pl⟩ := s
  constructor
  · intro h
    have : proc = none := h
    subst this
    rfl
  · intro pollRes hp
    have : proc = some pollRes := hp
    subst this
    cases pollRes with
    | none => simp [ffmpeg_failed]
    | some rc =>
      by_cases hrc : rc = 0
      · subst hrc
        simp [ffmpeg_failed]
      · cases hseg : has_segments ⟨some (some rc), pl⟩ with
        | true => simp [ffmpeg_failed, hrc, hseg]
        | false => simp [ffmpeg_failed, hrc, hseg]

/-- Witness for C2's amended theorem: a session exited with code 1 and an
unreadable manifest is reported failed. -/
theorem C2_ffmpeg_failed_amended_witness :
    ffmpeg_failed ⟨some (some 1), none⟩ = true :=
  ((C2_ffmpeg_failed_amended ⟨some (some 1), none⟩).2 (some 1) rfl).mpr
    ⟨⟨1, rfl, by decide⟩, rfl⟩

/-! ## Claim theorems: `playlist` handler (C7) -/

/-- C7: for every registered session, the playlist handler returns the 500
failure status when `ffmpeg_failed()` holds; otherwise, while the manifest
contains no segment entry (or cannot be read) it returns a success
response carrying the stub manifest — which starts with the `#EXTM3U`
header and contains zero `#EXTINF:` segment entries — and once at least
one segment entry exists it returns the real manifest content. -/
theorem C7_playlist_stub_or_real (s : SessionObs) (segDur : Nat) :
    (ffmpeg_failed s = true → playlistHandler s segDur = .err500) ∧
    (ffmpeg_failed s = false → has_segments s = false →
      playlistHandler s segDur = .ok (stubManifest segDur) ∧
      strContains (stubManifest segDur) "#EXTINF:" = false ∧
      "#EXTM3U".data <+: (stubManifest segDur).data) ∧
    (ffmpeg_failed s = false → ∀ content, s.playlistFile = some content →
      strContains content "#EXTINF:" = true →
      playlistHandler s segDur = .ok content) := by
  obtain ⟨proc, pl⟩ := s
  refine ⟨?_, ?_, ?_⟩
  · intro h
    unfold playlistHandler
    rw [if_pos h]
  · intro hf hseg
    refine ⟨?_, stubManifest_no_extinf segDur, stubManifest_header segDur⟩
    unfold playlistHandler
    rw [if_neg (by rw [hf]; simp)]
    cases pl with
    | none => rfl
    | some content =>
      have hc : strContains content "#EXTINF:" = false := by
        unfold has_segments at hseg
        exact hseg
      simp [hc]
  · intro hf content hplc hcc
    have : pl = some content := hplc
    subst this
    unfold playlistHandler
    rw [if_neg (by rw [hf]; simp)]
    simp [hcc]

/-- Witness for C7: a session with a live process and a manifest that has
not appeared yet receives the stub manifest with a success status. -/
theorem C7_playlist_stub_or_real_witness :
    playlistHandler ⟨some none, none⟩ 2 = .ok (stubManifest 2) :=
  ((C7_playlist_stub_or_real ⟨some none, none⟩ 2).2.1 rfl rfl).1

/-! ## `segment` handler (stream.py lines 467-499)

Polling time is discretized into ticks: each `time.sleep` in a loop
advances one tick.  `sizeAt t` is what `os.path.getsize` observes at tick
`t` (`none`: the file is missing or the read raises `OSError`);
`failedAt t` is what `sess.ffmpeg_failed()` observes at tick `t`. -/

/-- The readiness test of the first loop (line 479):
`os.path.exists(seg_path) and os.path.getsize(seg_path) > 0`. -/
def readyAt (sizeAt : Nat → Option Nat) (t : Nat) : Bool :=
  match sizeAt t with
  | some n => decide (0 < n)
  | none => false

/-- Outcome of the first polling loop. -/
inductive WaitRes
  | ready (t : Nat)
  | failed500
  | timeout504
deriving DecidableEq, Repr

/-- The first loop (lines 478-485): up to 300 polls; break when the file
exists non-empty, return the 500 error when `ffmpeg_failed()` holds,
otherwise sleep one tick; the `for … else` arm yields the 504 timeout on
exhaustion. -/
def waitExists (sizeAt : Nat → Option Nat) (failedAt : Nat → Bool) :
    Nat → Nat → WaitRes
  | 0, _ => .timeout504
  | fuel + 1, t =>
    if readyAt sizeAt t then .ready t
    else if failedAt t then .failed500
    else waitExists sizeAt failedAt fuel (t + 1)

/-- How the stabilization loop exited. -/
inductive StabExit
  | stable
  | readErr
  | exhausted
deriving DecidableEq, Repr

/-- The stabilization loop (lines 488-497): starting from
`prev_size = -1`, up to 50 size reads; break when the current size equals
the previous read (`stable`) or when the read raises (`readErr`);
otherwise record the size and sleep one tick; after 50 iterations the
loop ends by exhaustion.  Returns the exit tick and the exit cause. -/
def stabilize (sizeAt : Nat → Option Nat) :
    Nat → Int → Nat → Nat × StabExit
  | 0, _, t => (t, .exhausted)
  | fuel + 1, prev, t =>
    match sizeAt t with
    | none => (t, .readErr)
    | some cur =>
      if (cur : Int) = prev then (t, .stable)
      else stabilize sizeAt fuel (cur : Int) (t + 1)

/-- Response of the `segment` handler.  `served t e` is the `send_file`
response, issued at tick `t`; `e` instruments how the stabilization loop
exited (the HTTP response itself does not carry it). -/
inductive SegResp
  | served (t : Nat) (e : StabExit)
  | err500
  | err504
deriving DecidableEq, Repr

/-- The `segment` handler body after session lookup and `touch()`
(lines 477-499): poll for existence and non-emptiness, then run the
stabilization loop, then `send_file` — note the file is sent however the
stabilization loop exited. -/
def segmentHandler (sizeAt : Nat → Option Nat) (failedAt : Nat → Bool) : SegResp :=
  match waitExists sizeAt failedAt 300 0 with
  | .failed500 => .err500
  | .timeout504 => .err504
  | .ready t =>
    let r := stabilize sizeAt 50 (-1) t
    .served r.1 r.2

lemma stabilize_le (sizeAt : Nat → Option Nat) :
    ∀ (fuel : Nat) (prev : Int) (t : Nat), t ≤ (stabilize sizeAt fuel prev t).1 := by
  intro fuel
  induction fuel with
  | zero => intro prev t; exact le_refl t
  | succ fuel ih =>
    intro prev t
    simp only [stabilize]
    cases sizeAt t with
    | none => exact le_refl t
    | some cur =>
      dsimp only
      split
      · exact le_refl t
      · exact le_trans (Nat.le_succ t) (ih (cur : Int) (t + 1))

lemma stabilize_stable_spec (sizeAt : Nat → Option Nat) :
    ∀ (fuel : Nat) (prev : Int) (t : Nat),
      (stabilize sizeAt fuel prev t).2 = .stable →
      ∃ s : Nat, sizeAt (stabilize sizeAt fuel prev t).1 = some s ∧
        (((stabilize sizeAt fuel prev t).1 = t ∧ (s : Int) = prev) ∨
          (t < (stabilize sizeAt fuel prev t).1 ∧
            sizeAt ((stabilize sizeAt fuel prev t).1 - 1) = some s)) := by
  intro fuel
  induction fuel with
  | zero => intro prev t h; exact absurd h (by simp [stabilize])
  | succ fuel ih =>
    intro prev t h
    simp only [stabilize] at h ⊢
    cases hs : sizeAt t with
    | none =>
      rw [hs] at h
      exact absurd h (by simp)
    | some cur =>
      rw [hs] at h
      dsimp only at h ⊢
      by_cases heq : (cur : Int) = prev
      · rw [if_pos heq] at h ⊢
        exact ⟨cur, hs, Or.inl ⟨rfl, heq⟩⟩
      · rw [if_neg heq] at h ⊢
        obtain ⟨s, h1, h2⟩ := ih (cur : Int) (t + 1) h
        refine ⟨s, h1, Or.inr ?_⟩
        rcases h2 with ⟨hrt, hsp⟩ | ⟨hlt, hprev⟩
        · obtain rfl : s = cur := by exact_mod_cast hsp
          rw [hrt]
          exact ⟨Nat.lt_succ_self t, by simpa using hs⟩
        · exact ⟨Nat.lt_of_succ_lt hlt, hprev⟩

lemma waitExists_ready_spec (sizeAt : Nat → Option Nat) (failedAt : Nat → Bool) :
    ∀ (fuel t0 t : Nat), waitExists sizeAt failedAt fuel t0 = .ready t →
      readyAt sizeAt t = true ∧ t0 ≤ t ∧ t < t0 + fuel := by
  intro fuel
  induction fuel with
  | zero => intro t0 t h; exact absurd h (by simp [waitExists])
  | succ fuel ih =>
    intro t0 t h
    simp only [waitExists] at h
    by_cases hr : readyAt sizeAt t0 = true
    · rw [if_pos hr] at h
      obtain rfl : t0 = t := by injection h
      exact ⟨hr, le_refl t0, by omega⟩
    · rw [if_neg hr] at h
      by_cases hf : failedAt t0 = true
      · rw [if_pos hf] at h; exact absurd h (by simp)
      · rw [if_neg hf] at h
        obtain ⟨h1, h2, h3⟩ := ih (t0 + 1) t h
        exact ⟨h1, by omega, by omega⟩

lemma waitExists_failed_spec (sizeAt : Nat → Option Nat) (failedAt : Nat → Bool) :
    ∀ (fuel t0 : Nat), waitExists sizeAt failedAt fuel t0 = .failed500 →
      ∃ t, t0 ≤ t ∧ t < t0 + fuel ∧ failedAt t = true := by
  intro fuel
  induction fuel with
  | zero => intro t0 h; exact absurd h (by simp [waitExists])
  | succ fuel ih =>
    intro t0 h
    simp only [waitExists] at h
    by_cases hr : readyAt sizeAt t0 = true
    · rw [if_pos hr] at h; exact absurd h (by simp)
    · rw [if_neg hr] at h
      by_cases hf : failedAt t0 = true
      · exact ⟨t0, le_refl t0, by omega, hf⟩
      · rw [if_neg hf] at h
        obtain ⟨t, h1, h2, h3⟩ := ih (t0 + 1) h
        exact ⟨t, by omega, by omega, h3⟩

lemma waitExists_timeout_iff (sizeAt : Nat → Option Nat) (failedAt : Nat → Bool) :
    ∀ (fuel t0 : Nat), waitExists sizeAt failedAt fuel t0 = .timeout504 ↔
      ∀ i < fuel, readyAt sizeAt (t0 + i) = false ∧ failedAt (t0 + i) = false := by
  intro fuel
  induction fuel with
  | zero =>
    intro t0
    simp [waitExists]
  | succ fuel ih =>
    intro t0
    simp only [waitExists]
    by_cases hr : readyAt sizeAt t0 = true
    · rw [if_pos hr]
      constructor
      · intro h; exact absurd h (by simp)
      · intro h
        have := (h 0 (by omega)).1
        rw [Nat.add_zero] at this
        rw [this] at hr
        exact absurd hr (by simp)
    · rw [if_neg hr]
      by_cases hf : failedAt t0 = true
      · rw [if_pos hf]
        constructor
        · intro h; exact absurd h (by simp)
        · intro h
          have := (h 0 (by omega)).2
          rw [Nat.add_zero] at this
          rw [this] at hf
          exact absurd hf (by simp)
      · rw [if_neg hf]
        rw [ih (t0 + 1)]
        constructor
        · intro h i hi
          cases i with
          | zero =>
            exact ⟨Bool.not_eq_true _ ▸ (Bool.eq_false_iff.mpr hr),
              Bool.eq_false_iff.mpr hf⟩
          | succ i =>
            have := h i (by omega)
            constructor
            · rw [show t0 + (i + 1) = t0 + 1 + i by omega]; exact this.1
            · rw [show t0 + (i + 1) = t0 + 1 + i by omega]; exact this.2
        · intro h i hi
          have := h (i + 1) (by omega)
          constructor
          · rw [show t0 + 1 + i = t0 + (i + 1) by omega]; exact this.1
          · rw [show t0 + 1 + i = t0 + (i + 1) by omega]; exact this.2

/-! ## Claim theorems: `segment` handler (C3) -/

/-- C3, counterexample: with a segment file whose observed size strictly
grows at every poll (size t+1 at tick t) and a healthy process, the
handler exhausts the 50-iteration stabilization loop and serves the file
at tick 50 anyway — while the size is still changing (the size observed at
tick 50 differs from the one at tick 49), refuting "a segment whose size
is still changing is never delivered". -/
theorem C3_segment_unstable_serve_cex :
    segmentHandler (fun t => some (t + 1)) (fun _ => false)
        = .served 50 .exhausted ∧
      (fun t => some (t + 1)) 50 ≠ (fun t => some (t + 1)) 49 := by
  constructor
  · decide
  · decide

/-- C3, amended: the response body is served only after the segment file
has been observed to exist with non-zero size; the handler then polls
until the size is equal on two consecutive checks — and when it exits that
way the last two observed sizes are indeed equal — but after 50
stabilization checks (or a failed size read) the file is served even if
its size is still changing; the 504 timeout is returned exactly when the
file is never seen non-empty during the 300-poll bound and the process
never observed failed. -/
theorem C3_segment_amended (sizeAt : Nat → Option Nat) (failedAt : Nat → Bool) :
    (∀ t e, segmentHandler sizeAt failedAt = .served t e →
      (∃ t0, t0 ≤ t ∧ readyAt sizeAt t0 = true) ∧
      (e = .stable → 1 ≤ t ∧ sizeAt t ≠ none ∧ sizeAt t = sizeAt (t - 1))) ∧
    (segmentHandler sizeAt failedAt = .err504 ↔
      ∀ i < 300, readyAt sizeAt i = false ∧ failedAt i = false) := by
  unfold segmentHandler
  cases hw : waitExists sizeAt failedAt 300 0 with
  | ready t0 =>
    obtain ⟨hready, -, hlt300⟩ := waitExists_ready_spec sizeAt failedAt 300 0 t0 hw
    constructor
    · intro t e hserve
      dsimp only at hserve
      obtain ⟨rfl, rfl⟩ : (stabilize sizeAt 50 (-1) t0).1 = t ∧
          (stabilize sizeAt 50 (-1) t0).2 = e := by
        injection hserve with h1 h2
        exact ⟨h1, h2⟩
      constructor
      · exact ⟨t0, stabilize_le sizeAt 50 (-1) t0, hready⟩
      · intro hstable
        obtain ⟨s, h1, h2⟩ := stabilize_stable_spec sizeAt 50 (-1) t0 hstable
        rcases h2 with ⟨-, hsp⟩ | ⟨hlt, hprev⟩
        · exact absurd hsp (by omega)
        · refine ⟨by omega, by rw [h1]; simp, ?_⟩
          rw [h1, hprev]
    · constructor
      · intro h; exact absurd h (by simp)
      · intro h
        have := (h t0 (by omega)).1
        rw [this] at hready
        exact absurd hready (by simp)
  | failed500 =>
    obtain ⟨t, -, hlt, hfail⟩ := waitExists_failed_spec sizeAt failedAt 300 0 hw
    refine ⟨fun t e hserve => absurd hserve (by simp), ?_⟩
    constructor
    · intro h; exact absurd h (by simp)
    · intro h
      have := (h t (by omega)).2
      rw [this] at hfail
      exact absurd hfail (by simp)
  | timeout504 =>
    refine ⟨fun t e hserve => absurd hserve (by simp), ?_⟩
    have := (waitExists_timeout_iff sizeAt failedAt 300 0).mp hw
    exact ⟨fun _ => by simpa using this, fun _ => rfl⟩

/-- Witness for C3's amended theorem: with a constant observed size 5 the
handler serves at tick 1 after a stable check, and the sizes observed at
ticks 1 and 0 are equal. -/
theorem C3_segment_amended_witness :
    1 ≤ 1 ∧ (fun _ => (some 5 : Option Nat)) 1 ≠ none ∧
      (fun _ => (some 5 : Option Nat)) 1 = (fun _ => (some 5 : Option Nat)) 0 :=
  ((C3_segment_amended (fun _ => some 5) (fun _ => false)).1 1 .stable
    (by decide)).2 rfl

/-! ## `StreamSession.kill` (stream.py lines 250-270) -/

/-- Process handle state as `kill()` probes it: `running` is whether
`poll()` still returns `None`; `exitsInGrace` whether, after
`terminate()`, `wait(timeout=5)` returns before the grace period expires
(otherwise `TimeoutExpired` is raised and `process.kill()` fires). -/
structure ProcHandle where
  running : Bool
  exitsInGrace : Bool
deriving DecidableEq, Repr

/-- Teardown-relevant state of a session and its on-disk artifacts.
`errfpAttr = none` models the `_errfp` attribute being absent (as when
`start()` raised before assigning it, making `hasattr` false);
`some b` that the attribute is set with `b` telling whether the handle is
still open.  `proc = none` models `self.process` being `None`. -/
structure SessFS where
  errfpAttr : Option Bool
  proc : Option ProcHandle
  dirExists : Bool
  logExists : Bool
deriving DecidableEq, Repr

/-- The externally visible actions of one `kill()` call: a log handle
actually transitioning from open to closed, a `terminate()` delivered to a
live process, a `process.kill()` after the grace period expired, a
`shutil.rmtree` of the working directory, a successful `os.unlink` of the
error log.  (Re-closing a closed handle and `unlink` raising `OSError`
are no-ops in the code and recorded as no action.) -/
inductive KillAct
  | closeLog
  | term
  | forceKill
  | rmDir
  | unlinkLog
deriving DecidableEq, Repr

/-- `StreamSession.kill` (lines 250-270) as a state transformer that also
returns the visible actions in program order: close the log handle if the
attribute is present; if the process exists and `poll()` is `None`,
`terminate()` it, `wait` up to the grace period and `kill()` it only if
still alive; remove the working directory if it exists; unlink the error
log, swallowing `OSError`. -/
def kill (s : SessFS) : SessFS × List KillAct :=
  let e1 : Option Bool × List KillAct :=
    match s.errfpAttr with
    | some true => (some false, [.closeLog])
    | some false => (some false, [])
    | none => (none, [])
  let p2 : Option ProcHandle × List KillAct :=
    match s.proc with
    | some p =>
      if p.running then
        (some { p with running := false },
          if p.exitsInGrace then [.term] else [.term, .forceKill])
      else (some p, [])
    | none => (none, [])
  let d3 : Bool × List KillAct :=
    if s.dirExists then (false, [.rmDir]) else (false, [])
  let l4 : Bool × List KillAct :=
    if s.logExists then (false, [.unlinkLog]) else (false, [])
  (⟨e1.1, p2.1, d3.1, l4.1⟩, e1.2 ++ p2.2 ++ d3.2 ++ l4.2)

/-- Whether the session's process is currently running. -/
def procRunning (s : SessFS) : Bool :=
  match s.proc with
  | some p => p.running
  | none => false

/-- Whether the session's process would exit within the grace period once
terminated. -/
def procExitsInGrace (s : SessFS) : Bool :=
  match s.proc with
  | some p => p.exitsInGrace
  | none => false

/-! ## Claim theorems: `kill` idempotence (C6) -/

/-- C6: `kill()` is idempotent.  For every session state: the second of
two sequential `kill()` calls performs no visible action and leaves the
state unchanged (a no-op completing without error); a first call on a
session with a live process and an existing directory, open log handle
and log file performs, in program order, exactly one log-handle close, one
`terminate()`, a `process.kill()` only when the process does not exit
within the bounded grace wait, one directory deletion and one log unlink;
and across the two calls exactly one termination and one directory
deletion happen. -/
theorem C6_kill_idempotent (s : SessFS) :
    ((kill (kill s).1).1 = (kill s).1 ∧ (kill (kill s).1).2 = []) ∧
    (procRunning s = true → s.dirExists = true → s.errfpAttr = some true →
      s.logExists = true →
      (kill s).2 = .closeLog :: .term ::
        ((if procExitsInGrace s then [] else [.forceKill])
          ++ [.rmDir, .unlinkLog])) ∧
    (procRunning s = true → s.dirExists = true →
      ((kill s).2 ++ (kill (kill s).1).2).count KillAct.term = 1 ∧
      ((kill s).2 ++ (kill (kill s).1).2).count KillAct.rmDir = 1) := by
  obtain ⟨e, p, d, l⟩ := s
  rcases e with - | (- | -) <;> rcases p with - | ⟨(- | -), (- | -)⟩ <;>
    cases d <;> cases l <;> decide

/-- Witness for C6 at a concrete state: live process that ignores the
graceful termination (so the force-kill fires), directory, open handle and
log all present. -/
theorem C6_kill_idempotent_witness :
    (kill ⟨some true, some ⟨true, false⟩, true, true⟩).2 =
      [KillAct.closeLog, KillAct.term, KillAct.forceKill,
        KillAct.rmDir, KillAct.unlinkLog] :=
  (C6_kill_idempotent ⟨some true, some ⟨true, false⟩, true, true⟩).2.1
    rfl rfl rfl rfl

/-! ## `start` handler, sequential path (stream.py lines 336-429) -/

/-- Where `StreamSession.start()` raises, relative to its three
filesystem/process effects `os.makedirs(self.dir)`,
`open(self.error_log, "w")` and `subprocess.Popen`. -/
inductive FailPoint
  | beforeMkdir
  | beforeLogOpen
  | beforeSpawn
deriving DecidableEq, Repr

/-- `StreamSession.start` (lines 40-211) reduced to its effects on the
session's artifacts, in program order: create the working directory, open
the error log, spawn the process; `self._errfp` is assigned only after a
successful spawn, so on any raise the attribute is absent.  `failAt`
injects an exception before the named step (`none`: the launch succeeds
and the process handle is the freshly spawned `spawned`).  Returns the
artifact state and whether the call raised. -/
def sessLaunch (failAt : Option FailPoint) (spawned : ProcHandle) :
    SessFS × Bool :=
  match failAt with
  | some .beforeMkdir => (⟨none, none, false, false⟩, true)
  | some .beforeLogOpen => (⟨none, none, true, false⟩, true)
  | some .beforeSpawn => (⟨none, none, true, true⟩, true)
  | none => (⟨some true, some spawned, true, true⟩, false)

/-- HTTP-level outcome of a `start` request. -/
inductive StartResp
  | ok
  | tooMany429
  | launchErr500
deriving DecidableEq, Repr

/-- Result of one sequential `start` request: the final registry (the key
set of the global `sessions` dict, as a duplicate-free list), the
response, the ids killed by the replace step, and the new session's
artifact state after the launch attempt (and, on a raise, after the
`sess.kill()` of the except arm). -/
structure StartOutcome where
  registry : List String
  resp : StartResp
  killed : List String
  newSess : SessFS
deriving Repr

/-- The replace step (lines 358-364): `sessions.pop(replace_sid, None)`
under the lock, then `kill()` outside it when a session was found. -/
def popReplace (reg : List String) : Option String → List String × List String
  | some x => if x ∈ reg then (reg.erase x, [x]) else (reg, [])
  | none => (reg, [])

/-- The `start` handler (lines 336-429) after path validation, run as one
sequential request with no concurrent interference: pop-and-kill the
replaced session, capacity check, launch, then either register the new
session id or — when `sess.start()` raised — `kill()` the fresh session
and answer 500.  The probe and keyframe threads never touch the registry
and are omitted; in the 429 branch no session object was started, so its
artifact state is the empty one. -/
def startHandler (maxSessions : Nat) (reg : List String)
    (replaceSid : Option String) (newId : String) (failAt : Option FailPoint)
    (spawned : ProcHandle) : StartOutcome :=
  let pr := popReplace reg replaceSid
  if pr.1.length ≥ maxSessions then
    ⟨pr.1, .tooMany429, pr.2, ⟨none, none, false, false⟩⟩
  else
    let launch := sessLaunch failAt spawned
    if launch.2 then
      ⟨pr.1, .launchErr500, pr.2, (kill launch.1).1⟩
    else
      ⟨newId :: pr.1, .ok, pr.2, launch.1⟩

lemma popReplace_subset (reg : List String) (rs : Option String) :
    (popReplace reg rs).1 ⊆ reg := by
  cases rs with
  | none => exact fun a h => h
  | some x =>
    show (if x ∈ reg then (reg.erase x, [x]) else (reg, [])).1 ⊆ reg
    by_cases hx : x ∈ reg
    · rw [if_pos hx]
      exact fun a ha => List.mem_of_mem_erase ha
    · rw [if_neg hx]
      exact fun a h => h

/-! ## Claim theorems: replace-before-check (C5) and launch-failure
atomicity (C9) -/

/-- C5: for every start request carrying replace id `x` while the registry
is at capacity and `x` is registered, `x` is popped and killed strictly
before the capacity check (the killed list is exactly `[x]`, and the check
sees the registry without `x`), the request is admitted rather than
rejected with 429, and afterwards the new id is registered while `x` no
longer is. -/
theorem C5_replace_admits_at_capacity (maxSessions : Nat) (reg : List String)
    (x newId : String) (spawned : ProcHandle)
    (hx : x ∈ reg) (hlen : reg.length = maxSessions) (hnd : reg.Nodup)
    (hne : newId ≠ x) :
    (startHandler maxSessions reg (some x) newId none spawned).resp = .ok ∧
    (startHandler maxSessions reg (some x) newId none spawned).killed = [x] ∧
    newId ∈ (startHandler maxSessions reg (some x) newId none spawned).registry ∧
    x ∉ (startHandler maxSessions reg (some x) newId none spawned).registry := by
  have hpos : 1 ≤ maxSessions := hlen ▸ List.length_pos.mpr (by
    intro hnil; rw [hnil] at hx; cases hx)
  have hpr : popReplace reg (some x) = (reg.erase x, [x]) := by
    show (if x ∈ reg then (reg.erase x, [x]) else (reg, [])) = (reg.erase x, [x])
    rw [if_pos hx]
  have herlen : (reg.erase x).length = maxSessions - 1 := by
    rw [List.length_erase_of_mem hx, hlen]
  have hcap : ¬ (reg.erase x).length ≥ maxSessions := by omega
  unfold startHandler
  rw [hpr]
  dsimp only
  rw [if_neg hcap]
  refine ⟨rfl, rfl, List.mem_cons_self newId _, ?_⟩
  intro hmem
  rcases List.mem_cons.mp hmem with h | h
  · exact hne h.symm
  · rw [List.Nodup.mem_erase_iff hnd] at h
    exact h.1 rfl

/-- Witness for C5: registry at capacity 1 holding "a"; a start replacing
"a" is admitted and "a" is killed. -/
theorem C5_replace_admits_at_capacity_witness :
    (startHandler 1 ["a"] (some "a") "b" none ⟨true, true⟩).resp = .ok ∧
    (startHandler 1 ["a"] (some "a") "b" none ⟨true, true⟩).killed = ["a"] := by
  have h := C5_replace_admits_at_capacity 1 ["a"] "a" "b" ⟨true, true⟩
    (by simp) rfl (by simp) (by decide)
  exact ⟨h.1, h.2.1⟩

/-- C9: launch failure is atomic with respect to the registry and the
filesystem: for every start request that passes the capacity check and
whose `sess.start()` raises (at any of its stages), the handler answers
500, the new session id is never inserted into the registry, and the
session's working directory and error log are gone by the time the
response is sent. -/
theorem C9_launch_failure_atomic (maxSessions : Nat) (reg : List String)
    (replaceSid : Option String) (newId : String) (fp : FailPoint)
    (spawned : ProcHandle)
    (hcap : (popReplace reg replaceSid).1.length < maxSessions)
    (hnew : newId ∉ reg) :
    (startHandler maxSessions reg replaceSid newId (some fp) spawned).resp
        = .launchErr500 ∧
    newId ∉ (startHandler maxSessions reg replaceSid newId
        (some fp) spawned).registry ∧
    (startHandler maxSessions reg replaceSid newId
        (some fp) spawned).newSess.dirExists = false ∧
    (startHandler maxSessions reg replaceSid newId
        (some fp) spawned).newSess.logExists = false := by
  unfold startHandler
  rw [if_neg (by omega)]
  have hraise : (sessLaunch (some fp) spawned).2 = true := by
    cases fp <;> rfl
  rw [if_pos hraise]
  refine ⟨rfl, ?_, ?_, ?_⟩
  · intro hmem
    exact hnew (popReplace_subset reg replaceSid hmem)
  · cases fp <;> rfl
  · cases fp <;> rfl

/-- Witness for C9: an empty registry with capacity 1 and a spawn that
raises; the response is the 500 error and the id is not registered. -/
theorem C9_launch_failure_atomic_witness :
    (startHandler 1 [] none "n" (some .beforeSpawn) ⟨true, true⟩).resp
        = .launchErr500 ∧
    "n" ∉ (startHandler 1 [] none "n" (some .beforeSpawn) ⟨true, true⟩).registry ∧
    (startHandler 1 [] none "n"
        (some .beforeSpawn) ⟨true, true⟩).newSess.dirExists = false := by
  have h := C9_launch_failure_atomic 1 [] none "n" .beforeSpawn ⟨true, true⟩
    (by decide) (by simp)
  exact ⟨h.1, h.2.1, h.2.2.1⟩

/-! ## Concurrent admission (C1): the capacity check (lines 368-370) and
the insertion (lines 410-411) are two separate `with sessions_lock`
critical sections, with the ffmpeg spawn between them outside the lock. -/

/-- Program counter of one no-replace `start` request reduced to its two
registry critical sections: `check` (lines 368-370), `insert`
(lines 410-411), `done b` with the admission outcome (`false`: answered
429). -/
inductive StartPC
  | check
  | insert
  | done (admitted : Bool)
deriving DecidableEq, Repr

/-- One atomic critical section of a thread at `pc` against a registry of
size `reg`: the check rejects when `len(sessions) >= max_sessions`, and
otherwise the thread leaves the lock to spawn ffmpeg, returning later for
the separate insertion section, which adds the session. -/
def stepThread (maxSessions reg : Nat) : StartPC → StartPC × Nat
  | .check => if reg ≥ maxSessions then (.done false, reg) else (.insert, reg)
  | .insert => (.done true, reg + 1)
  | .done b => (.done b, reg)

/-- Run an interleaving schedule: at each step the named thread executes
its next atomic critical section.  State: registry size and each thread's
program counter; out-of-range thread ids are skipped. -/
def runSched (maxSessions : Nat) :
    List Nat → Nat × List StartPC → Nat × List StartPC
  | [], st => st
  | i :: rest, (reg, pcs) =>
    match pcs[i]? with
    | none => runSched maxSessions rest (reg, pcs)
    | some pc =>
      let r := stepThread maxSessions reg pc
      runSched maxSessions rest (r.2, pcs.set i r.1)

/-! ## Claim theorem: admission is not atomic (C1) -/

/-- C1: with `max_sessions = 1`, an empty registry and two concurrent
no-replace `start` requests scheduled check, check, insert, insert — an
interleaving the code permits because the capacity check and the
insertion are two separate lock acquisitions with the process spawn in
between — both requests pass the check and both insert: the registry ends
holding 2 sessions, exceeding the ceiling of 1, and both clients are
admitted. -/
theorem C1_admission_race_eval :
    runSched 1 [0, 1, 0, 1] (0, [.check, .check])
        = (2, [.done true, .done true]) ∧ 1 < 2 :=
  ⟨rfl, by omega⟩

/-! ## Encode plan: the "original" profile branch of `StreamSession.start`
(stream.py lines 51-73 and 122-157) -/

/-- One entry of `probe_data["streams"]` with the fields the plan reads:
`codec_type`, `codec_name` (an absent key yields the Python default `""`),
`width`, and the stream `bit_rate` (ffprobe emits it as a decimal
string). -/
structure ProbeStream where
  codec_type : String
  codec_name : String
  width : Option Nat
  bit_rate : Option String
deriving DecidableEq, Repr

/-- The probe output as the plan reads it: the stream list and
`format.bit_rate`. -/
structure ProbeData where
  streams : List ProbeStream
  format_bit_rate : Option String
deriving DecidableEq, Repr

/-- `SAFE_CODECS` (line 22): codecs browsers natively decode in HLS. -/
def SAFE_CODECS : List String := ["h264"]

/-- Python `str.lower()` as the code applies it to ASCII codec names:
lowercase each character. -/
def pyLower (s : String) : String := ⟨s.data.map Char.toLower⟩

/-- Python `int()` on a digit string (the code only applies it under an
`isdigit()` guard): fold the decimal digits. -/
def digitsToNat (l : List Char) : Nat :=
  l.foldl (fun acc c => acc * 10 + (c.toNat - Char.toNat (Char.ofNat 48))) 0

/-- `int(vbr)` for a digit string `vbr`. -/
def pyInt (s : String) : Nat := digitsToNat s.data

/-- The stream loop of lines 60-69 stops at the first video stream. -/
def firstVideo (pd : ProbeData) : Option ProbeStream :=
  pd.streams.find? (fun s => s.codec_type == "video")

/-- Lines 56-64: for the "original" profile, transcoding is needed iff the
probe succeeded and the first video stream's lowercased codec name is not
in the allow-list (`pd = none` models `ffprobe` returning nothing). -/
def needs_transcode (pd : Option ProbeData) : Bool :=
  match pd with
  | none => false
  | some pd =>
    match firstVideo pd with
    | some v => !(SAFE_CODECS.contains (pyLower v.codec_name))
    | none => false

/-- Lines 65-66: the first video stream's width. -/
def source_width (pd : Option ProbeData) : Option Nat :=
  match pd with
  | none => none
  | some pd =>
    match firstVideo pd with
    | some v => v.width
    | none => none

/-- Python truthiness of an optional string (`None` and `""` are falsy). -/
def strTruthy : Option String → Bool
  | none => false
  | some s => !s.isEmpty

/-- Lines 68-72: the stream's `bit_rate`, falling back to the format-level
`bit_rate` when transcoding is needed and the stream value is falsy. -/
def source_bitrate (pd : Option ProbeData) : Option String :=
  match pd with
  | none => none
  | some pd =>
    let sb := match firstVideo pd with
      | some v => v.bit_rate
      | none => none
    if needs_transcode (some pd) && !(strTruthy sb) then pd.format_bit_rate
    else sb

/-- Python `str.isdigit()`: nonempty and every character a digit. -/
def pyIsDigit (s : String) : Bool := !s.isEmpty && s.data.all Char.isDigit

/-- Lines 126-129: the target video bitrate of the upgraded "original"
plan — the source bitrate when truthy, the conservative default `"20M"`
otherwise; a purely numeric string (ffprobe reports bits/s) is converted
to kilobit units by integer division: `str(int(int(vbr) / 1000)) + "k"`. -/
def originalVbr (pd : Option ProbeData) : String :=
  let vbr := match source_bitrate pd with
    | some s => if s.isEmpty then "20M" else s
    | none => "20M"
  if pyIsDigit vbr then toString (pyInt vbr / 1000) ++ "k" else vbr

/-- Lines 133/139/145/151:
`scale_w = source_width if source_width else 1920`. -/
def originalScaleW (pd : Option ProbeData) : Nat :=
  match source_width pd with
  | some w => if w ≠ 0 then w else 1920
  | none => 1920

/-- The three-way video-encode decision of lines 122-188. -/
inductive VideoPlan
  | copy
  | transcodeOriginal (scale_w : Nat) (vbr : String)
  | profileTarget
deriving DecidableEq, Repr

/-- The video-plan selection of `StreamSession.start` (lines 122-188):
stream copy for a natively-playable "original" source, the upgraded
transcode at source resolution for a non-playable "original" source, and
the profile's own scale/bitrate target otherwise.  (The hardware backend
only changes the concrete encoder/filter names, not this decision.) -/
def buildVideoPlan (profileName : String) (pd : Option ProbeData) : VideoPlan :=
  if profileName = "original" ∧ needs_transcode pd = false then .copy
  else if profileName = "original" ∧ needs_transcode pd = true then
    .transcodeOriginal (originalScaleW pd) (originalVbr pd)
  else .profileTarget

/-- Numeric value in bits/s of a bitrate argument as ffmpeg parses it:
plain digits, or a digit run with a `k` or `M` suffix. -/
def bitrateToBps (s : String) : Option Nat :=
  match s.data.reverse with
  | [] => none
  | c :: rest =>
    if c = Char.ofNat 107 then
      if !rest.isEmpty && rest.all Char.isDigit
      then some (digitsToNat rest.reverse * 1000) else none
    else if c = Char.ofNat 77 then
      if !rest.isEmpty && rest.all Char.isDigit
      then some (digitsToNat rest.reverse * 1000000) else none
    else if pyIsDigit s then some (pyInt s) else none

/-! ## Claim theorems: encode-plan upgrade (C8) -/

/-- C8, counterexample: an "original"-profile start on an HEVC source with
probed stream bit_rate "4997354" does select the
transcode-at-source-resolution plan, but the target video bitrate passed
to the encoder is "4997k" = 4 997 000 bits/s, not the probed 4 997 354
bits/s: the code truncates the source bitrate to whole kilobits, so the
target bitrate is not equal to the probed source bitrate. -/
theorem C8_original_bitrate_cex :
    buildVideoPlan "original"
        (some ⟨[⟨"video", "hevc", some 1920, some "4997354"⟩], none⟩)
      = .transcodeOriginal 1920 "4997k" ∧
    bitrateToBps "4997k" = some 4997000 ∧
    bitrateToBps "4997354" = some 4997354 ∧ 4997000 ≠ 4997354 :=
  ⟨by decide, by decide, by decide, by omega⟩

/-- C8, amended: whenever the resolved profile is "original" and the
probed source video codec (lowercased) is not in the natively-playable
allow-list, the encode plan selects the transcode at source resolution,
never the stream copy; its scale width is the probed source width (with
1920 substituted when the width is unknown or zero), and its target video
bitrate is the probed source bitrate truncated to whole kilobits
(rendered with a "k" suffix) when the source bitrate is known as a
numeric string, and the conservative default "20M" when no bitrate is
known at all. -/
theorem C8_original_upgrade_amended (pd : ProbeData) (v : ProbeStream)
    (hv : firstVideo pd = some v)
    (hcodec : SAFE_CODECS.contains (pyLower v.codec_name) = false) :
    buildVideoPlan "original" (some pd)
        = .transcodeOriginal (originalScaleW (some pd)) (originalVbr (some pd)) ∧
    buildVideoPlan "original" (some pd) ≠ .copy ∧
    (∀ w, v.width = some w → w ≠ 0 → originalScaleW (some pd) = w) ∧
    (∀ b, v.bit_rate = some b → pyIsDigit b = true →
      originalVbr (some pd) = toString (pyInt b / 1000) ++ "k") ∧
    (v.bit_rate = none → pd.format_bit_rate = none →
      originalVbr (some pd) = "20M") := by
  have hnt : needs_transcode (some pd) = true := by
    simp only [needs_transcode, hv, hcodec]
    rfl
  have hplan : buildVideoPlan "original" (some pd)
      = .transcodeOriginal (originalScaleW (some pd)) (originalVbr (some pd)) := by
    unfold buildVideoPlan
    rw [if_neg (by simp [hnt]), if_pos ⟨rfl, hnt⟩]
  refine ⟨hplan, by rw [hplan]; simp, ?_, ?_, ?_⟩
  · intro w hw hw0
    simp [originalScaleW, source_width, hv, hw, hw0]
  · intro b hb hd
    have hbne : b.isEmpty = false := by
      by_contra hbe
      rw [Bool.not_eq_false] at hbe
      unfold pyIsDigit at hd
      rw [hbe] at hd
      simp at hd
    have hsb : source_bitrate (some pd) = some b := by
      simp [source_bitrate, hv, hb, hnt, strTruthy, hbne]
    simp [originalVbr, hsb, hbne, hd]
  · intro hbn hfn
    have hsb : source_bitrate (some pd) = none := by
      simp [source_bitrate, hv, hbn, hfn]
    rw [show originalVbr (some pd)
        = (let vbr := "20M";
            if pyIsDigit vbr then toString (pyInt vbr / 1000) ++ "k"
            else vbr) by
      unfold originalVbr
      rw [hsb]]
    decide

/-- Witness for C8's amended theorem: an AV1 source of width 1280 with no
probed bitrate at all yields a transcode plan at width 1280 with the
default bitrate "20M". -/
theorem C8_original_upgrade_amended_witness :
    buildVideoPlan "original" (some ⟨[⟨"video", "av1", some 1280, none⟩], none⟩)
      = .transcodeOriginal 1280 "20M" := by
  have h := C8_original_upgrade_amended ⟨[⟨"video", "av1", some 1280, none⟩], none⟩
      ⟨"video", "av1", some 1280, none⟩ rfl (by decide)
  rw [h.1, h.2.2.1 1280 rfl (by decide), h.2.2.2.2 rfl rfl]

end ReelStream
